import Mathlib

/-!
The CSS selector builder (`src/05-objects-tasks.js`)

A shallow embedding of the classes `CSS` and `Combine`, of the facade
`cssSelectorBuilder` and of the functions `Rectangle` and `fromJSON`.

* A JavaScript method that mutates `this` and may throw is a function from the
  state of `this` before the call to a pair: the outcome of the call
  (`Except.ok ()` for a normal return, `Except.error msg` for
  `throw new Error(msg)`) and the state of `this` after the call.  The value a
  successful fragment method returns is `this` itself, that is, the second
  component.
* `value` is a string, as in the documented use of the builder.
* `s.length` in a condition is true exactly when `s.length ≠ 0`; a string in a
  condition is true exactly when it is not `''`.
* A number whose value is an integer is an `Int`; the product of two such
  numbers is the exact product rounded to the number type (IEEE 754 binary64).
* `JSON.parse` is a function of the host and a parameter of `fromJSON`.
-/

set_option autoImplicit false

/-- Message of the error thrown when `element`, `id` or `pseudoElement` is
called on a builder whose slot is already occupied. -/
def duplicateError : String :=
  "Element, id and pseudo-element should not occur more then one time inside the selector"

/-- Message of the error thrown when a selector part arrives after a part of a
later category. -/
def orderError : String :=
  "Selector parts should be arranged in the following order: element, id, class, attribute, pseudo-class, pseudo-element"

/-- Fields of an instance of `class CSS`. -/
structure CSS where
  Element : String
  Id : String
  Class : List String
  Attr : List String
  PseudoClass : List String
  PseudoElement : String
  deriving DecidableEq, Repr

/-- The state `constructor()` of `class CSS` leaves `this` in. -/
def CSS.new : CSS :=
  { Element := "", Id := "", Class := [], Attr := [], PseudoClass := [], PseudoElement := "" }

/-- Method `element(value)` of `class CSS`. -/
def CSS.element (this : CSS) (value : String) : Except String Unit × CSS :=
  if this.Element.length ≠ 0 then
    (Except.error duplicateError, this)
  else if this.Id.length ≠ 0
      ∨ this.Class.length ≠ 0
      ∨ this.Attr.length ≠ 0
      ∨ this.PseudoClass.length ≠ 0
      ∨ this.PseudoElement ≠ "" then
    (Except.error orderError, this)
  else
    (Except.ok (), { this with Element := value })

/-- Method `id(value)` of `class CSS`. -/
def CSS.id (this : CSS) (value : String) : Except String Unit × CSS :=
  if this.Id.length ≠ 0 then
    (Except.error duplicateError, this)
  else if this.Class.length ≠ 0
      ∨ this.Attr.length ≠ 0
      ∨ this.PseudoClass.length ≠ 0
      ∨ this.PseudoElement ≠ "" then
    (Except.error orderError, this)
  else
    (Except.ok (), { this with Id := "#" ++ value })

/-- Method `class(value)` of `class CSS` (`class` is a keyword of Lean). -/
def CSS.class_ (this : CSS) (value : String) : Except String Unit × CSS :=
  if this.Attr.length ≠ 0 ∨ this.PseudoClass.length ≠ 0 ∨ this.PseudoElement ≠ "" then
    (Except.error orderError, this)
  else
    (Except.ok (), { this with Class := this.Class ++ ["." ++ value] })

/-- Method `attr(value)` of `class CSS`. -/
def CSS.attr (this : CSS) (value : String) : Except String Unit × CSS :=
  if this.PseudoClass.length ≠ 0 ∨ this.PseudoElement ≠ "" then
    (Except.error orderError, this)
  else
    (Except.ok (), { this with Attr := this.Attr ++ ["[" ++ value ++ "]"] })

/-- Method `pseudoClass(value)` of `class CSS`. -/
def CSS.pseudoClass (this : CSS) (value : String) : Except String Unit × CSS :=
  if this.PseudoElement ≠ "" then
    (Except.error orderError, this)
  else
    (Except.ok (), { this with PseudoClass := this.PseudoClass ++ [":" ++ value] })

/-- Method `pseudoElement(value)` of `class CSS`. -/
def CSS.pseudoElement (this : CSS) (value : String) : Except String Unit × CSS :=
  if this.PseudoElement ≠ "" then
    (Except.error duplicateError, this)
  else
    (Except.ok (), { this with PseudoElement := "::" ++ value })

/-- Method `stringify()` of `class CSS`: the accumulator `result` is threaded
through the six statements, each `forEach` being a left fold. -/
def CSS.stringify (this : CSS) : String :=
  let result := ""
  let result := result ++ this.Element
  let result := result ++ this.Id
  let result := this.Class.foldl (fun result el => result ++ el) result
  let result := this.Attr.foldl (fun result el => result ++ el) result
  let result := this.PseudoClass.foldl (fun result el => result ++ el) result
  let result := result ++ this.PseudoElement
  result

/-- Fields of an instance of `class Combine`. -/
structure Combine where
  result : String
  deriving DecidableEq, Repr

/-- The `constructor(string1, combinator, string2)` of `class Combine`. -/
def Combine.new (string1 combinator string2 : String) : Combine :=
  { result := string1 ++ " " ++ combinator ++ " " ++ string2 }

/-- Method `stringify()` of `class Combine`. -/
def Combine.stringify (this : Combine) : String :=
  this.result

/-- A selector handed to `combine`: any object with a `stringify()` method the
module can produce, a `CSS` builder or a `Combine`. -/
inductive Selector where
  | css (builder : CSS)
  | combine (combined : Combine)
  deriving DecidableEq, Repr

/-- The call `selector.stringify()`, dispatched on the class of the object. -/
def Selector.stringify : Selector → String
  | Selector.css builder => builder.stringify
  | Selector.combine combined => combined.stringify

/-- The facade function `cssSelectorBuilder.combine`. -/
def cssSelectorBuilder.combine (selector1 : Selector) (combinator : String)
    (selector2 : Selector) : Combine :=
  Combine.new selector1.stringify combinator selector2.stringify

/-! ## Vocabulary for statements about sequences of calls -/

/-- The six kinds of selector part, named after the methods of `class CSS`. -/
inductive Fragment where
  | element
  | id
  | class_
  | attr
  | pseudoClass
  | pseudoElement
  deriving DecidableEq, Repr

/-- Position of a kind in the order element, id, class, attribute,
pseudo-class, pseudo-element. -/
def Fragment.rank : Fragment → Nat
  | Fragment.element => 0
  | Fragment.id => 1
  | Fragment.class_ => 2
  | Fragment.attr => 3
  | Fragment.pseudoClass => 4
  | Fragment.pseudoElement => 5

/-- The method call `this.<kind>(value)`. -/
def CSS.call (this : CSS) (kind : Fragment) (value : String) : Except String Unit × CSS :=
  match kind with
  | Fragment.element => this.element value
  | Fragment.id => this.id value
  | Fragment.class_ => this.class_ value
  | Fragment.attr => this.attr value
  | Fragment.pseudoClass => this.pseudoClass value
  | Fragment.pseudoElement => this.pseudoElement value

/-- The builder holds a part of the given kind: its field is not empty. -/
def CSS.has (this : CSS) : Fragment → Prop
  | Fragment.element => this.Element ≠ ""
  | Fragment.id => this.Id ≠ ""
  | Fragment.class_ => this.Class ≠ []
  | Fragment.attr => this.Attr ≠ []
  | Fragment.pseudoClass => this.PseudoClass ≠ []
  | Fragment.pseudoElement => this.PseudoElement ≠ ""

instance (this : CSS) (kind : Fragment) : Decidable (this.has kind) := by
  cases kind <;> unfold CSS.has <;> infer_instance

/-- The text a part of the given kind contributes to a selector, as the
documentation of the builder writes it:
`element#id.class[attr]:pseudoClass::pseudoElement`. -/
def Fragment.token : Fragment → String → String
  | Fragment.element, v => v
  | Fragment.id, v => "#" ++ v
  | Fragment.class_, v => "." ++ v
  | Fragment.attr, v => "[" ++ v ++ "]"
  | Fragment.pseudoClass, v => ":" ++ v
  | Fragment.pseudoElement, v => "::" ++ v

/-- A fluent chain `this.p1(v1).p2(v2)...`: the calls run in order and the
first one that throws ends the chain. -/
def CSS.chain (this : CSS) : List (Fragment × String) → Except String Unit × CSS
  | [] => (Except.ok (), this)
  | (kind, value) :: rest =>
    match this.call kind value with
    | (Except.ok _, next) => next.chain rest
    | (Except.error msg, next) => (Except.error msg, next)

/-- The calls made one after the other on the same object by a caller that
catches every error: the state of the object after the last one. -/
def CSS.after (this : CSS) : List (Fragment × String) → CSS
  | [] => this
  | (kind, value) :: rest => (this.call kind value).2.after rest

/-- Concatenation of a sequence of tokens with no separator, first token
first (`concat` of the specification). -/
def concatTokens : List String → String
  | [] => ""
  | token :: rest => token ++ concatTokens rest

/-! ## The facade, `stringify()` as a call, `Rectangle` and `fromJSON` -/

/-- The facade function `cssSelectorBuilder.element`. -/
def cssSelectorBuilder.element (value : String) : Except String Unit × CSS :=
  let builder := CSS.new
  builder.element value

/-- The facade function `cssSelectorBuilder.id`. -/
def cssSelectorBuilder.id (value : String) : Except String Unit × CSS :=
  let builder := CSS.new
  builder.id value

/-- The facade function `cssSelectorBuilder.class`. -/
def cssSelectorBuilder.class_ (value : String) : Except String Unit × CSS :=
  let builder := CSS.new
  builder.class_ value

/-- The facade function `cssSelectorBuilder.attr`. -/
def cssSelectorBuilder.attr (value : String) : Except String Unit × CSS :=
  let builder := CSS.new
  builder.attr value

/-- The facade function `cssSelectorBuilder.pseudoClass`. -/
def cssSelectorBuilder.pseudoClass (value : String) : Except String Unit × CSS :=
  let builder := CSS.new
  builder.pseudoClass value

/-- The facade function `cssSelectorBuilder.pseudoElement`. -/
def cssSelectorBuilder.pseudoElement (value : String) : Except String Unit × CSS :=
  let builder := CSS.new
  builder.pseudoElement value

/-- The facade entry point of a kind. -/
def cssSelectorBuilder.entry (kind : Fragment) (value : String) : Except String Unit × CSS :=
  match kind with
  | Fragment.element => cssSelectorBuilder.element value
  | Fragment.id => cssSelectorBuilder.id value
  | Fragment.class_ => cssSelectorBuilder.class_ value
  | Fragment.attr => cssSelectorBuilder.attr value
  | Fragment.pseudoClass => cssSelectorBuilder.pseudoClass value
  | Fragment.pseudoElement => cssSelectorBuilder.pseudoElement value

/-- Method `stringify()` of `class CSS` as a call on the object: the pair of
the local variable `result` and of the state of `this` is threaded through the
statements of the body and through the callbacks of the three `forEach`; the
call returns `result` and leaves the object in the state reached. -/
def CSS.stringifyCall (this : CSS) : String × CSS :=
  let state : String × CSS := ("", this)
  let state := (state.1 ++ state.2.Element, state.2)
  let state := (state.1 ++ state.2.Id, state.2)
  let state := state.2.Class.foldl (fun st el => (st.1 ++ el, st.2)) state
  let state := state.2.Attr.foldl (fun st el => (st.1 ++ el, st.2)) state
  let state := state.2.PseudoClass.foldl (fun st el => (st.1 ++ el, st.2)) state
  let state := (state.1 ++ state.2.PseudoElement, state.2)
  state

/-- The state of the object after `count` calls of `stringify()` in a row. -/
def CSS.afterStringify (this : CSS) : Nat → CSS
  | 0 => this
  | count + 1 => (this.stringifyCall.2).afterStringify count

/-- Rounding of a natural number to the nearest number of the JavaScript
number type (IEEE 754 binary64: 53 significant bits, ties to the even
significand); `none` when the result is `Infinity` (`2 ^ 1024` or more). -/
def roundNumber (m : Nat) : Option Nat :=
  let bits := Nat.size m
  if bits ≤ 53 then some m
  else
    let shift := bits - 53
    let q := m / 2 ^ shift
    let r := m % 2 ^ shift
    let half := 2 ^ (shift - 1)
    let q := if half < r ∨ (r = half ∧ q % 2 = 1) then q + 1 else q
    let rounded := q * 2 ^ shift
    if rounded < 2 ^ 1024 then some rounded else none

/-- The JavaScript product `a * b` of two numbers whose values are the
integers `a` and `b`: the exact product rounded to the number type; `none`
when the result is `Infinity` or `-Infinity`. -/
def numberMul (a b : Int) : Option Int :=
  let exact := a * b
  match roundNumber exact.natAbs with
  | some m => some (if exact < 0 then -(m : Int) else (m : Int))
  | none => none

/-- The object `Rectangle(width, height)` returns. -/
structure RectangleObject where
  width : Int
  height : Int
  getArea : Unit → Option Int

/-- Function `Rectangle(width, height)`, on numbers whose values are integers. -/
def Rectangle (width height : Int) : RectangleObject :=
  { width := width
    height := height
    getArea := fun _ => numberMul width height }

/-- The call `Object.values(obj)` on an object given by its own enumerable
properties in enumeration order. -/
def Object.values {α : Type} (obj : List (String × α)) : List α :=
  obj.map Prod.snd

/-- A prototype: its `constructor`, a function of the list of the arguments
of the call `new proto.constructor(...)`. -/
structure Proto (α β : Type) where
  constructor : List α → β

/-- Function `fromJSON(proto, json)`.  `JSON.parse` belongs to the host, not to
the module, and is a parameter: it throws or returns the parsed object, given
by its own properties in enumeration order. -/
def fromJSON {α β : Type} (parse : String → Except String (List (String × α)))
    (proto : Proto α β) (json : String) : Except String β :=
  match parse json with
  | Except.error e => Except.error e
  | Except.ok obj => Except.ok (proto.constructor (Object.values obj))

/-! ## Lemmas on strings and on the guards -/

theorem string_length_eq_zero (s : String) : s.length = 0 ↔ s = "" := by
  constructor
  · intro h
    apply String.ext
    exact List.length_eq_zero.mp h
  · rintro rfl
    rfl

theorem string_append_ne_empty (p s : String) (hp : p ≠ "") : p ++ s ≠ "" := by
  intro h
  have hlen : (p ++ s).length = 0 := (string_length_eq_zero _).mpr h
  rw [String.length_append] at hlen
  exact hp ((string_length_eq_zero p).mp (by omega))

theorem foldl_append_eq (tokens : List String) (result : String) :
    tokens.foldl (fun result el => result ++ el) result = result ++ concatTokens tokens := by
  induction tokens generalizing result with
  | nil => simp [concatTokens]
  | cons token rest ih => simp [concatTokens, ih, String.append_assoc]

theorem concatTokens_append (xs ys : List String) :
    concatTokens (xs ++ ys) = concatTokens xs ++ concatTokens ys := by
  induction xs with
  | nil => simp [concatTokens]
  | cons token rest ih => simp [concatTokens, ih, String.append_assoc]

theorem stringify_eq (b : CSS) :
    b.stringify = b.Element ++ b.Id ++ concatTokens b.Class ++ concatTokens b.Attr
      ++ concatTokens b.PseudoClass ++ b.PseudoElement := by
  simp [CSS.stringify, foldl_append_eq]

/-- A call that throws leaves the object as it was. -/
theorem call_error_state (b : CSS) (kind : Fragment) (value msg : String)
    (h : (b.call kind value).1 = Except.error msg) : (b.call kind value).2 = b := by
  cases kind <;>
    simp only [CSS.call, CSS.element, CSS.id, CSS.class_, CSS.attr, CSS.pseudoClass,
      CSS.pseudoElement] at h ⊢ <;>
    split_ifs at h ⊢ <;> rfl

/-- A call that returns appends its token to the rendered selector. -/
theorem call_ok_stringify (b : CSS) (kind : Fragment) (value : String)
    (h : (b.call kind value).1 = Except.ok ()) :
    (b.call kind value).2.stringify = b.stringify ++ kind.token value := by
  cases kind <;>
    simp only [CSS.call, CSS.element, CSS.id, CSS.class_, CSS.attr, CSS.pseudoClass,
      CSS.pseudoElement] at h ⊢ <;>
    split_ifs at h ⊢ <;>
    simp_all only [not_or, not_not, ne_eq, string_length_eq_zero, List.length_eq_zero] <;>
    simp [stringify_eq, Fragment.token, concatTokens_append, concatTokens,
      String.append_assoc, *]

/-- The three kinds that may occur once only. -/
def Fragment.singular : Fragment → Prop
  | Fragment.element => True
  | Fragment.id => True
  | Fragment.pseudoElement => True
  | _ => False

instance (kind : Fragment) : Decidable kind.singular := by
  cases kind <;> unfold Fragment.singular <;> infer_instance

/-- The two messages are different strings. -/
theorem duplicateError_ne_orderError : duplicateError ≠ orderError := by decide

/-- Every error a fragment method throws carries one of the two messages. -/
theorem call_error_msg (b : CSS) (kind : Fragment) (value msg : String)
    (h : (b.call kind value).1 = Except.error msg) :
    msg = duplicateError ∨ msg = orderError := by
  cases kind <;>
    simp only [CSS.call, CSS.element, CSS.id, CSS.class_, CSS.attr, CSS.pseudoClass,
      CSS.pseudoElement] at h <;>
    split_ifs at h <;> simp at h <;> simp [← h]

/-- A singular setter whose slot is occupied throws the duplicate error. -/
theorem call_occupied (b : CSS) (kind : Fragment) (value : String)
    (hs : kind.singular) (h : b.has kind) :
    (b.call kind value).1 = Except.error duplicateError := by
  cases kind <;>
    simp only [Fragment.singular, CSS.has, CSS.call, CSS.element, CSS.id, CSS.pseudoElement,
      ne_eq, ← string_length_eq_zero] at hs h ⊢ <;>
    simp [h, string_length_eq_zero]

/-- A part of a later kind in the builder makes the call of an earlier kind
throw. -/
theorem call_after_later (b : CSS) (earlier later : Fragment) (value : String)
    (hlt : earlier.rank < later.rank) (hhas : b.has later) :
    ∃ msg, (b.call earlier value).1 = Except.error msg := by
  cases earlier <;> cases later <;>
    simp only [Fragment.rank, Nat.lt_irrefl, Nat.not_lt_zero] at hlt <;>
    first
    | omega
    | (simp only [CSS.has, ne_eq, ← List.length_eq_zero, ← string_length_eq_zero] at hhas
       simp only [CSS.call, CSS.element, CSS.id, CSS.class_, CSS.attr, CSS.pseudoClass,
         ne_eq, ← string_length_eq_zero]
       split_ifs <;> simp_all)

/-- With its own slot free, an earlier setter or adder called on a builder
holding a later part throws the order error. -/
theorem call_after_later_order (b : CSS) (earlier later : Fragment) (value : String)
    (hlt : earlier.rank < later.rank) (hhas : b.has later)
    (hfree : earlier.singular → ¬ b.has earlier) :
    (b.call earlier value).1 = Except.error orderError := by
  cases earlier <;> cases later <;>
    simp only [Fragment.rank, Nat.lt_irrefl, Nat.not_lt_zero] at hlt <;>
    first
    | omega
    | (simp only [CSS.has, Fragment.singular, ne_eq, not_not, true_implies, false_implies,
         ← List.length_eq_zero, ← string_length_eq_zero] at hhas hfree
       simp only [CSS.call, CSS.element, CSS.id, CSS.class_, CSS.attr, CSS.pseudoClass,
         ne_eq, ← string_length_eq_zero]
       split_ifs <;> simp_all)

/-- A successful call of a singular setter occupies its slot, for `element`
provided the value is not the empty string. -/
theorem call_ok_has (b : CSS) (kind : Fragment) (value : String)
    (hs : kind.singular) (hv : kind = Fragment.element → value ≠ "")
    (hok : (b.call kind value).1 = Except.ok ()) : (b.call kind value).2.has kind := by
  cases kind <;>
    simp only [Fragment.singular, CSS.has, CSS.call, CSS.element, CSS.id, CSS.pseudoElement,
      ne_eq, true_implies] at hs hv hok ⊢ <;>
    split_ifs at hok ⊢ <;>
    first
    | exact hv
    | exact string_append_ne_empty _ _ (by decide)

/-- An occupied singular slot stays occupied through any call. -/
theorem call_keeps_has (b : CSS) (kind other : Fragment) (value : String)
    (hs : kind.singular) (h : b.has kind) : (b.call other value).2.has kind := by
  cases kind <;> cases other <;>
    simp only [Fragment.singular, CSS.has, CSS.call, CSS.element, CSS.id, CSS.class_, CSS.attr,
      CSS.pseudoClass, CSS.pseudoElement, ne_eq, ← string_length_eq_zero] at hs h ⊢ <;>
    split_ifs <;> simp_all

/-- An occupied singular slot stays occupied through any sequence of calls. -/
theorem after_keeps_has (calls : List (Fragment × String)) (b : CSS) (kind : Fragment)
    (hs : kind.singular) (h : b.has kind) : (b.after calls).has kind := by
  induction calls generalizing b with
  | nil => exact h
  | cons c rest ih => exact ih _ (call_keeps_has b kind c.1 c.2 hs h)

/-- The call `kind` may follow what the builder holds: every part present is of
the same or an earlier kind, and of a strictly earlier one when it is
singular. -/
def CSS.admits (this : CSS) (kind : Fragment) : Prop :=
  ∀ held : Fragment, this.has held →
    held.rank ≤ kind.rank ∧ (held.singular → held ≠ kind)

/-- A call the builder admits returns. -/
theorem call_ok_of_admits (b : CSS) (kind : Fragment) (value : String)
    (h : b.admits kind) : (b.call kind value).1 = Except.ok () := by
  have h0 := h Fragment.element
  have h1 := h Fragment.id
  have h2 := h Fragment.class_
  have h3 := h Fragment.attr
  have h4 := h Fragment.pseudoClass
  have h5 := h Fragment.pseudoElement
  cases kind <;>
    simp only [CSS.has, Fragment.rank, Fragment.singular, ne_eq, ← List.length_eq_zero,
      ← string_length_eq_zero] at h0 h1 h2 h3 h4 h5 <;>
    simp only [reduceCtorEq, not_false_eq_true, not_true_eq_false, implies_true, and_true,
      and_false, imp_false, not_not, Nat.le_refl, Nat.zero_le, Nat.reduceLeDiff]
      at h0 h1 h2 h3 h4 h5 <;>
    simp only [CSS.call, CSS.element, CSS.id, CSS.class_, CSS.attr, CSS.pseudoClass,
      CSS.pseudoElement, ne_eq, ← string_length_eq_zero] <;>
    split_ifs <;> simp_all

/-- What a builder holds after a call it held before, or is of the kind of the
call. -/
theorem call_has (b : CSS) (kind held : Fragment) (value : String)
    (h : (b.call kind value).2.has held) : b.has held ∨ held = kind := by
  by_cases hk : held = kind
  · exact Or.inr hk
  · left
    cases kind <;> cases held <;>
      simp only [CSS.has, CSS.call, CSS.element, CSS.id, CSS.class_, CSS.attr,
        CSS.pseudoClass, CSS.pseudoElement, ne_eq] at h hk ⊢ <;>
      first
      | exact absurd trivial hk
      | (split_ifs at h <;> exact h)

/-- A chain in category order with at most one call of each singular kind,
started on a builder that admits each of its calls, returns, and its rendered
selector is the one before followed by the tokens of the calls. -/
theorem chain_ordered (calls : List (Fragment × String)) (b : CSS)
    (hsorted : calls.Pairwise (fun x y => x.1.rank ≤ y.1.rank))
    (honce : ∀ kind : Fragment, kind.singular → (calls.map Prod.fst).count kind ≤ 1)
    (hadm : ∀ c ∈ calls, b.admits c.1) :
    (b.chain calls).1 = Except.ok () ∧
      (b.chain calls).2.stringify
        = b.stringify ++ concatTokens (calls.map (fun c => c.1.token c.2)) := by
  induction calls generalizing b with
  | nil => simp [CSS.chain, concatTokens]
  | cons c rest ih =>
    obtain ⟨kind, value⟩ := c
    have hok : (b.call kind value).1 = Except.ok () :=
      call_ok_of_admits b kind value (hadm (kind, value) (List.mem_cons_self _ _))
    have hstr := call_ok_stringify b kind value hok
    rw [List.pairwise_cons] at hsorted
    have hrest := ih (b.call kind value).2 hsorted.2
      (fun k hk => by
        have := honce k hk
        rw [List.map_cons, List.count_cons] at this
        omega)
      (fun c hc held hheld => by
        rcases call_has b kind held value hheld with hb | rfl
        · exact hadm c (List.mem_cons_of_mem _ hc) held hb
        · refine ⟨hsorted.1 c hc, fun hs heq => ?_⟩
          have := honce held hs
          have hmem : held ∈ rest.map Prod.fst := heq ▸ List.mem_map_of_mem Prod.fst hc
          have hpos : 0 < (rest.map Prod.fst).count held := List.count_pos_iff.mpr hmem
          rw [List.map_cons, List.count_cons] at this
          simp at this
          omega)
    have hchain : b.chain ((kind, value) :: rest) = (b.call kind value).2.chain rest := by
      rw [CSS.chain]
      split
      · next _ next heq => rw [heq]
      · next msg next heq => rw [heq] at hok; simp at hok
    rw [hchain, hrest.2, hstr]
    exact ⟨hrest.1, by simp [concatTokens, String.append_assoc]⟩

/-- The first call of a chain that returns has returned, and the chain went on
from the state it left. -/
theorem chain_cons_ok (b : CSS) (kind : Fragment) (value : String)
    (rest : List (Fragment × String))
    (h : (b.chain ((kind, value) :: rest)).1 = Except.ok ()) :
    (b.call kind value).1 = Except.ok () ∧
      b.chain ((kind, value) :: rest) = (b.call kind value).2.chain rest := by
  rw [CSS.chain] at h ⊢
  split at h
  · next _ next heq => simp [heq]
  · next msg next heq => simp at h

/-- In a chain that returns every single call has returned. -/
theorem chain_ok_each (pre : List (Fragment × String)) (b : CSS) (c : Fragment × String)
    (post : List (Fragment × String))
    (h : (b.chain (pre ++ c :: post)).1 = Except.ok ()) :
    ((b.after pre).call c.1 c.2).1 = Except.ok () := by
  induction pre generalizing b with
  | nil => exact (chain_cons_ok b c.1 c.2 post h).1
  | cons p pre ih =>
    have hp := chain_cons_ok b p.1 p.2 (pre ++ c :: post) h
    rw [List.cons_append, show p = (p.1, p.2) from rfl, hp.2] at h
    exact ih _ h

/-- The state `constructor()` builds renders as the empty string. -/
theorem new_stringify : CSS.new.stringify = "" := by decide

/-- The fresh builder admits every call. -/
theorem new_admits (kind : Fragment) : CSS.new.admits kind := by
  intro held hheld
  cases held <;> simp [CSS.has, CSS.new] at hheld

/-! ## The claims -/

/-- C1: a chain of fragment calls on a fresh builder that follows the order
element, id, class, attribute, pseudo-class, pseudo-element, with at most one
element, one id and one pseudo-element call, returns; each of its calls
returns; and `stringify()` of the final builder is the concatenation, in call
order, of the tokens `v`, `#v`, `.v`, `[v]`, `:v`, `::v`. -/
theorem C1_ordered_chain_stringify (calls : List (Fragment × String))
    (hsorted : calls.Pairwise (fun x y => x.1.rank ≤ y.1.rank))
    (helement : (calls.map Prod.fst).count Fragment.element ≤ 1)
    (hid : (calls.map Prod.fst).count Fragment.id ≤ 1)
    (hpseudo : (calls.map Prod.fst).count Fragment.pseudoElement ≤ 1) :
    (CSS.new.chain calls).1 = Except.ok () ∧
      (∀ pre c post, calls = pre ++ c :: post →
        ((CSS.new.after pre).call c.1 c.2).1 = Except.ok ()) ∧
      (CSS.new.chain calls).2.stringify
        = concatTokens (calls.map (fun c => c.1.token c.2)) := by
  have h := chain_ordered calls CSS.new hsorted
    (fun kind hk => by cases kind <;> first | assumption | exact absurd hk (by simp [Fragment.singular]))
    (fun c _ => new_admits c.1)
  refine ⟨h.1, ?_, ?_⟩
  · intro pre c post hsplit
    subst hsplit
    exact chain_ok_each pre CSS.new c post h.1
  · rw [h.2, new_stringify, String.empty_append]

/-- C1, the two documented chains: `id('main').class('container').class('editable')`
gives `#main.container.editable` and
`element('a').attr('href$=".png"').pseudoClass('focus')` gives
`a[href$=".png"]:focus`. -/
theorem C1_ordered_chain_stringify_witness :
    ((CSS.new.chain [(Fragment.id, "main"), (Fragment.class_, "container"),
        (Fragment.class_, "editable")]).1 = Except.ok () ∧
      (CSS.new.chain [(Fragment.id, "main"), (Fragment.class_, "container"),
        (Fragment.class_, "editable")]).2.stringify = "#main.container.editable") ∧
    ((CSS.new.chain [(Fragment.element, "a"), (Fragment.attr, "href$=\".png\""),
        (Fragment.pseudoClass, "focus")]).1 = Except.ok () ∧
      (CSS.new.chain [(Fragment.element, "a"), (Fragment.attr, "href$=\".png\""),
        (Fragment.pseudoClass, "focus")]).2.stringify = "a[href$=\".png\"]:focus") :=
  ⟨⟨(C1_ordered_chain_stringify _ (by decide) (by decide) (by decide) (by decide)).1,
    (C1_ordered_chain_stringify _ (by decide) (by decide) (by decide) (by decide)).2.2.trans
      (by decide)⟩,
   ⟨(C1_ordered_chain_stringify _ (by decide) (by decide) (by decide) (by decide)).1,
    (C1_ordered_chain_stringify _ (by decide) (by decide) (by decide) (by decide)).2.2.trans
      (by decide)⟩⟩

/-- C2: whatever the builder and the value, the call of an earlier kind on a
builder that holds a part of a strictly later kind throws; nothing is assumed
about the field of the earlier kind, which may be empty. -/
theorem C2_earlier_after_later_fails (b : CSS) (earlier later : Fragment) (value : String)
    (hlt : earlier.rank < later.rank) (hhas : b.has later) :
    ∃ msg, (b.call earlier value).1 = Except.error msg :=
  call_after_later b earlier later value hlt hhas

/-- C2 at `class('c')` followed by `element('div')`: the element field is
empty and the call throws. -/
theorem C2_earlier_after_later_fails_witness :
    (CSS.new.call Fragment.class_ "c").2.Element = "" ∧
      ∃ msg, ((CSS.new.call Fragment.class_ "c").2.call Fragment.element "div").1
        = Except.error msg :=
  ⟨by decide,
   C2_earlier_after_later_fails (CSS.new.call Fragment.class_ "c").2 Fragment.element
     Fragment.class_ "div" (by decide) (by decide)⟩

/-- C3 fails for `element` with the empty string: `element('')` returns on a
fresh builder and leaves the element field empty, so the next
`element('div')` returns as well instead of throwing the duplicate error. -/
theorem C3_counterexample :
    (CSS.new.call Fragment.element "").1 = Except.ok () ∧
      ((CSS.new.call Fragment.element "").2.call Fragment.element "div").1 = Except.ok () ∧
      ((CSS.new.call Fragment.element "").2.call Fragment.element "div").1
        ≠ Except.error duplicateError := by
  refine ⟨rfl, rfl, ?_⟩
  intro h
  cases h

/-- C3 as amended: after a call of `element`, `id` or `pseudoElement` that
returned, for `element` with a value other than the empty string, every later
call of the same setter on that builder, whatever calls were made in between
and whatever its value, throws the duplicate error. -/
theorem C3_second_singular_call_fails (b : CSS) (kind : Fragment) (v w : String)
    (between : List (Fragment × String))
    (hs : kind.singular) (hv : kind = Fragment.element → v ≠ "")
    (hok : (b.call kind v).1 = Except.ok ()) :
    (((b.call kind v).2.after between).call kind w).1 = Except.error duplicateError :=
  call_occupied _ kind w hs
    (after_keeps_has between _ kind hs (call_ok_has b kind v hs hv hok))

/-- C3 as amended, at `id('main')`, then `class('c')`, then `id('other')`. -/
theorem C3_second_singular_call_fails_witness :
    (CSS.new.call Fragment.id "main").1 = Except.ok () ∧
      ((((CSS.new.call Fragment.id "main").2.after [(Fragment.class_, "c")]).call
        Fragment.id "other").1 = Except.error duplicateError) :=
  ⟨rfl,
   C3_second_singular_call_fails CSS.new Fragment.id "main" "other" [(Fragment.class_, "c")]
     trivial (fun h => by cases h) rfl⟩

/-- C4: a fragment call that throws, with either message, leaves the builder
with the six fields it had, so `stringify()` is unchanged. -/
theorem C4_failed_call_atomic (b : CSS) (kind : Fragment) (value msg : String)
    (h : (b.call kind value).1 = Except.error msg) :
    (msg = duplicateError ∨ msg = orderError) ∧
      (b.call kind value).2 = b ∧
      (b.call kind value).2.Element = b.Element ∧
      (b.call kind value).2.Id = b.Id ∧
      (b.call kind value).2.Class = b.Class ∧
      (b.call kind value).2.Attr = b.Attr ∧
      (b.call kind value).2.PseudoClass = b.PseudoClass ∧
      (b.call kind value).2.PseudoElement = b.PseudoElement ∧
      (b.call kind value).2.stringify = b.stringify := by
  have hstate := call_error_state b kind value msg h
  refine ⟨call_error_msg b kind value msg h, hstate, ?_, ?_, ?_, ?_, ?_, ?_, ?_⟩ <;>
    rw [hstate]

/-- C4 at `element('div')` called a second time and at `id('x')` after
`class('c')`. -/
theorem C4_failed_call_atomic_witness :
    ((CSS.new.call Fragment.element "div").2.call Fragment.element "span").2
        = (CSS.new.call Fragment.element "div").2 ∧
      ((CSS.new.call Fragment.class_ "c").2.call Fragment.id "x").2
        = (CSS.new.call Fragment.class_ "c").2 :=
  ⟨(C4_failed_call_atomic (CSS.new.call Fragment.element "div").2 Fragment.element "span"
      duplicateError rfl).2.1,
   (C4_failed_call_atomic (CSS.new.call Fragment.class_ "c").2 Fragment.id "x"
      orderError rfl).2.1⟩

/-- C5 fails when the slot of the setter is occupied: after
`element('div').class('c')` a later category is populated, and `element('span')`
throws the duplicate error, not the order error. -/
theorem C5_counterexample :
    (CSS.new.chain [(Fragment.element, "div"), (Fragment.class_, "c")]).1 = Except.ok () ∧
      (CSS.new.chain [(Fragment.element, "div"), (Fragment.class_, "c")]).2.has
        Fragment.class_ ∧
      Fragment.element.rank < Fragment.class_.rank ∧
      ((CSS.new.chain [(Fragment.element, "div"), (Fragment.class_, "c")]).2.call
        Fragment.element "span").1 = Except.error duplicateError ∧
      ((CSS.new.chain [(Fragment.element, "div"), (Fragment.class_, "c")]).2.call
        Fragment.element "span").1 ≠ Except.error orderError := by
  refine ⟨rfl, by decide, by decide, rfl, ?_⟩
  intro h
  have hmsg : duplicateError = orderError := Except.error.inj (Eq.trans (Eq.symm rfl) h)
  exact duplicateError_ne_orderError hmsg

/-- C5 as amended: on a builder that holds a part of a later kind, the call of
an earlier kind throws the order error when the field of that earlier kind is
empty, which is required of `element` and `id` only; `class`, `attr` and
`pseudoClass` throw the order error whatever their own list holds. -/
theorem C5_earlier_after_later_order_error (b : CSS) (earlier later : Fragment)
    (value : String) (hlt : earlier.rank < later.rank) (hhas : b.has later)
    (hfree : earlier.singular → ¬ b.has earlier) :
    (b.call earlier value).1 = Except.error orderError ∧
      (b.call earlier value).1 ≠ Except.error duplicateError := by
  have h := call_after_later_order b earlier later value hlt hhas hfree
  refine ⟨h, fun h2 => ?_⟩
  rw [h] at h2
  exact duplicateError_ne_orderError (Except.error.inj h2).symm

/-- C5 as amended, at `class('c')` followed by `element('div')`. -/
theorem C5_earlier_after_later_order_error_witness :
    ((CSS.new.call Fragment.class_ "c").2.call Fragment.element "div").1
      = Except.error orderError :=
  (C5_earlier_after_later_order_error (CSS.new.call Fragment.class_ "c").2 Fragment.element
    Fragment.class_ "div" (by decide) (by decide) (fun _ => by decide)).1

/-- C6: `element`, `id` and `pseudoElement` called on a builder whose own slot
is not empty throw the duplicate error whatever the other five fields hold, and
that error is not the order error: the two messages differ. -/
theorem C6_occupied_slot_duplicate_error (b : CSS) (kind : Fragment) (value : String)
    (hs : kind = Fragment.element ∨ kind = Fragment.id ∨ kind = Fragment.pseudoElement)
    (hocc : b.has kind) :
    (b.call kind value).1 = Except.error duplicateError ∧
      (b.call kind value).1 ≠ Except.error orderError ∧
      duplicateError ≠ orderError := by
  have hsing : kind.singular := by
    rcases hs with rfl | rfl | rfl <;> trivial
  have h := call_occupied b kind value hsing hocc
  refine ⟨h, fun h2 => ?_, duplicateError_ne_orderError⟩
  rw [h] at h2
  exact duplicateError_ne_orderError (Except.error.inj h2)

/-- C6 on a builder with an element, an id, a class, an attribute, a
pseudo-class and a pseudo-element: `id('x')` throws the duplicate error. -/
theorem C6_occupied_slot_duplicate_error_witness :
    (CSS.call
      { Element := "div", Id := "#main", Class := [".c"], Attr := ["[href]"],
        PseudoClass := [":focus"], PseudoElement := "::after" }
      Fragment.id "x").1 = Except.error duplicateError :=
  (C6_occupied_slot_duplicate_error
    { Element := "div", Id := "#main", Class := [".c"], Attr := ["[href]"],
      PseudoClass := [":focus"], PseudoElement := "::after" }
    Fragment.id "x" (Or.inr (Or.inl rfl)) (by decide)).1

/-- C7: for every builder state `stringify()` is
`element ++ id ++ concat(classes) ++ concat(attributes) ++ concat(pseudoClasses)
++ pseudoElement`, each list concatenated in its stored order with no
separator. -/
theorem C7_stringify_concatenation (b : CSS) :
    b.stringify = b.Element ++ b.Id ++ concatTokens b.Class ++ concatTokens b.Attr
      ++ concatTokens b.PseudoClass ++ b.PseudoElement :=
  stringify_eq b

/-- C8: for all selectors and every token, `combine(left, t, right).stringify()`
is `left.stringify() ++ " " ++ t ++ " " ++ right.stringify()`; with `+`,
`div#main` and `table#data` it is `div#main + table#data`; with the token `" "`
the operands are separated by exactly three spaces. -/
theorem C8_combine_stringify :
    (∀ (left : Selector) (t : String) (right : Selector),
      (cssSelectorBuilder.combine left t right).stringify
        = left.stringify ++ " " ++ t ++ " " ++ right.stringify) ∧
    (∀ a b : Selector, a.stringify = "div#main" → b.stringify = "table#data" →
      (cssSelectorBuilder.combine a "+" b).stringify = "div#main + table#data") ∧
    (∀ a b : Selector,
      (cssSelectorBuilder.combine a " " b).stringify
        = a.stringify ++ "   " ++ b.stringify) := by
  refine ⟨fun _ _ _ => rfl, ?_, ?_⟩
  · intro a b ha hb
    simp only [cssSelectorBuilder.combine, Combine.new, Combine.stringify, ha, hb]
    decide
  · intro a b
    simp only [cssSelectorBuilder.combine, Combine.new, Combine.stringify,
      String.append_assoc]
    rfl

/-- C8 at `element('div').id('main')` and `element('table').id('data')`
combined with `+`. -/
theorem C8_combine_stringify_witness :
    (cssSelectorBuilder.combine
      (Selector.css (CSS.new.chain [(Fragment.element, "div"), (Fragment.id, "main")]).2) "+"
      (Selector.css (CSS.new.chain [(Fragment.element, "table"), (Fragment.id, "data")]).2)
      ).stringify = "div#main + table#data" :=
  C8_combine_stringify.2.1 _ _ (by decide) (by decide)

/-- C9: `element(value)` returns exactly when the builder is completely empty
(the three strings are empty and the three lists are empty), and then the
element field is `value` itself, with no prefix, the other fields being kept. -/
theorem C9_element_iff_empty (b : CSS) (value : String) :
    ((b.element value).1 = Except.ok () ↔
      (b.Element = "" ∧ b.Id = "" ∧ b.Class = [] ∧ b.Attr = [] ∧ b.PseudoClass = [] ∧
        b.PseudoElement = "")) ∧
    ((b.element value).1 = Except.ok () →
      (b.element value).2.Element = value ∧
        (b.element value).2 = { b with Element := value }) := by
  unfold CSS.element
  simp only [ne_eq, string_length_eq_zero, List.length_eq_zero]
  split_ifs with h1 h2
  · simp only [reduceCtorEq, false_iff, false_implies, and_true]
    tauto
  · simp only [not_or, not_not] at h2
    simp only [true_iff, true_implies, and_self, and_true]
    exact ⟨h1, h2⟩
  · simp [h1]

/-- C9 at the fresh builder and `element('div')`. -/
theorem C9_element_iff_empty_witness :
    (CSS.new.element "div").1 = Except.ok () ∧ (CSS.new.element "div").2.Element = "div" :=
  ⟨(C9_element_iff_empty CSS.new "div").1.mpr ⟨rfl, rfl, rfl, rfl, rfl, rfl⟩,
   ((C9_element_iff_empty CSS.new "div").2 rfl).1⟩

/-- C10: `id(value)` returns exactly when id, classes, attributes,
pseudo-classes and pseudo-element are all empty, whatever the element field;
then the id field is `"#" ++ value`, which is not empty for any value, the
empty string included. -/
theorem C10_id_iff_later_empty (b : CSS) (value : String) :
    ((b.id value).1 = Except.ok () ↔
      (b.Id = "" ∧ b.Class = [] ∧ b.Attr = [] ∧ b.PseudoClass = [] ∧
        b.PseudoElement = "")) ∧
    (∀ e : String, (CSS.id { b with Element := e } value).1 = (b.id value).1) ∧
    ((b.id value).1 = Except.ok () →
      (b.id value).2.Id = "#" ++ value ∧ (b.id value).2 = { b with Id := "#" ++ value }) ∧
    "#" ++ value ≠ "" := by
  refine ⟨?_, ?_, ?_, string_append_ne_empty _ _ (by decide)⟩
  · unfold CSS.id
    simp only [ne_eq, string_length_eq_zero, List.length_eq_zero]
    split_ifs with h1 h2
    · simp only [reduceCtorEq, false_iff]
      tauto
    · simp only [not_or, not_not] at h2
      simp only [true_iff]
      exact ⟨h1, h2⟩
    · simp [h1]
  · intro e
    unfold CSS.id
    split_ifs <;> rfl
  · unfold CSS.id
    split_ifs <;> simp

/-- C10 at `element('div')` followed by `id('main')`, and at `id('')` on the
fresh builder. -/
theorem C10_id_iff_later_empty_witness :
    ((CSS.new.element "div").2.id "main").1 = Except.ok () ∧
      ((CSS.new.element "div").2.id "main").2.Id = "#main" ∧
      (CSS.new.id "").2.Id ≠ "" :=
  ⟨(C10_id_iff_later_empty (CSS.new.element "div").2 "main").1.mpr ⟨rfl, rfl, rfl, rfl, rfl⟩,
   ((C10_id_iff_later_empty (CSS.new.element "div").2 "main").2.2.1 rfl).1.trans (by decide),
   by decide⟩

/-! ## Lemmas for the adders, the facade and `stringify()` as a call -/

/-- The callbacks of `forEach` in `stringify()` leave the object alone and
append the tokens to `result`. -/
theorem foldl_stringify_state (tokens : List String) (state : String × CSS) :
    tokens.foldl (fun st el => (st.1 ++ el, st.2)) state
      = (tokens.foldl (fun result el => result ++ el) state.1, state.2) := by
  induction tokens generalizing state with
  | nil => rfl
  | cons token rest ih => rw [List.foldl_cons, ih, List.foldl_cons]

/-- A call of `stringify()` returns the string `CSS.stringify` computes and
leaves the object in the state it was in. -/
theorem stringifyCall_eq (b : CSS) : b.stringifyCall = (b.stringify, b) := by
  simp only [CSS.stringifyCall, CSS.stringify, foldl_stringify_state]

/-- Any number of calls of `stringify()` leaves the object in the state it was
in. -/
theorem afterStringify_eq (count : Nat) (b : CSS) : b.afterStringify count = b := by
  induction count generalizing b with
  | zero => rfl
  | succ n ih => rw [CSS.afterStringify, stringifyCall_eq, ih]

/-- C11: `class(value)` returns exactly when attributes, pseudo-classes and
pseudo-element are empty; the outcome does not depend on element, id or the
classes present; on success `"." ++ value` is the new last entry of classes
and nothing else changes, and the same class can be added again. -/
theorem C11_class_iff_later_empty (b : CSS) (value : String) :
    ((b.class_ value).1 = Except.ok () ↔
      (b.Attr = [] ∧ b.PseudoClass = [] ∧ b.PseudoElement = "")) ∧
    (∀ (e i : String) (cs : List String),
      (CSS.class_ { b with Element := e, Id := i, Class := cs } value).1
        = (b.class_ value).1) ∧
    ((b.class_ value).1 = Except.ok () →
      (b.class_ value).2.Class = b.Class ++ ["." ++ value] ∧
        (b.class_ value).2 = { b with Class := b.Class ++ ["." ++ value] } ∧
        ((b.class_ value).2.class_ value).1 = Except.ok () ∧
        ((b.class_ value).2.class_ value).2.Class
          = b.Class ++ ["." ++ value, "." ++ value]) := by
  refine ⟨?_, ?_, ?_⟩
  · unfold CSS.class_
    simp only [ne_eq, string_length_eq_zero, List.length_eq_zero]
    split_ifs with h1
    · simp only [reduceCtorEq, false_iff]
      tauto
    · simp only [not_or, not_not] at h1
      simp only [true_iff]
      exact h1
  · intro e i cs
    unfold CSS.class_
    split_ifs <;> rfl
  · unfold CSS.class_
    split_ifs with h1
    · simp
    · simp [h1]

/-- C11 at `id('main').class('c')`: the call returns and classes is `['.c']`. -/
theorem C11_class_iff_later_empty_witness :
    ((CSS.new.id "main").2.class_ "c").1 = Except.ok () ∧
      ((CSS.new.id "main").2.class_ "c").2.Class = [".c"] ∧
      (((CSS.new.id "main").2.class_ "c").2.class_ "c").2.Class = [".c", ".c"] :=
  ⟨(C11_class_iff_later_empty (CSS.new.id "main").2 "c").1.mpr ⟨rfl, rfl, rfl⟩,
   ((C11_class_iff_later_empty (CSS.new.id "main").2 "c").2.2 rfl).1.trans (by decide),
   ((C11_class_iff_later_empty (CSS.new.id "main").2 "c").2.2 rfl).2.2.2.trans (by decide)⟩

/-- C12: `pseudoElement(value)` returns exactly when the pseudo-element field
is empty, whatever the other five fields hold; it never throws the order
error; on success the field is `"::" ++ value` and nothing else changes. -/
theorem C12_pseudoElement_iff_empty (b : CSS) (value : String) :
    ((b.pseudoElement value).1 = Except.ok () ↔ b.PseudoElement = "") ∧
    (∀ (e i : String) (cs as ps : List String),
      (CSS.pseudoElement
        { b with Element := e, Id := i, Class := cs, Attr := as, PseudoClass := ps } value).1
        = (b.pseudoElement value).1) ∧
    (b.pseudoElement value).1 ≠ Except.error orderError ∧
    ((b.pseudoElement value).1 = Except.ok () →
      (b.pseudoElement value).2.PseudoElement = "::" ++ value ∧
        (b.pseudoElement value).2 = { b with PseudoElement := "::" ++ value }) := by
  refine ⟨?_, ?_, ?_, ?_⟩
  · unfold CSS.pseudoElement
    split_ifs with h1
    · simp only [reduceCtorEq, false_iff]
      exact h1
    · simp only [not_not] at h1
      simp [h1]
  · intro e i cs as ps
    unfold CSS.pseudoElement
    split_ifs <;> rfl
  · unfold CSS.pseudoElement
    split_ifs
    · intro h
      exact duplicateError_ne_orderError (Except.error.inj h)
    · simp
  · unfold CSS.pseudoElement
    split_ifs
    · simp
    · simp

/-- C12 on a builder with element, id, class, attribute and pseudo-class:
`pseudoElement('after')` returns. -/
theorem C12_pseudoElement_iff_empty_witness :
    (CSS.pseudoElement
      { Element := "div", Id := "#main", Class := [".c"], Attr := ["[href]"],
        PseudoClass := [":focus"], PseudoElement := "" } "after").1 = Except.ok () ∧
    (CSS.pseudoElement
      { Element := "div", Id := "#main", Class := [".c"], Attr := ["[href]"],
        PseudoClass := [":focus"], PseudoElement := "" } "after").2.PseudoElement
      = "::after" :=
  ⟨(C12_pseudoElement_iff_empty _ "after").1.mpr rfl,
   ((C12_pseudoElement_iff_empty
      { Element := "div", Id := "#main", Class := [".c"], Attr := ["[href]"],
        PseudoClass := [":focus"], PseudoElement := "" } "after").2.2.2 rfl).1.trans
     (by decide)⟩

/-- A facade entry point is the call of the method on a fresh builder; it
returns, and the builder renders as the token of the value. -/
theorem entry_eq (kind : Fragment) (value : String) :
    cssSelectorBuilder.entry kind value = CSS.new.call kind value ∧
      (cssSelectorBuilder.entry kind value).1 = Except.ok () ∧
      (cssSelectorBuilder.entry kind value).2.stringify = kind.token value := by
  have heq : cssSelectorBuilder.entry kind value = CSS.new.call kind value := by
    cases kind <;> rfl
  have hok := call_ok_of_admits CSS.new kind value (new_admits kind)
  have hstr := call_ok_stringify CSS.new kind value hok
  rw [new_stringify, String.empty_append] at hstr
  rw [heq]
  exact ⟨rfl, hok, hstr⟩

/-- C13: each of the six facade entry points returns for every value, its
result is the result of the corresponding method called on a fresh builder,
and the builder renders as `v`, `#v`, `.v`, `[v]`, `:v`, `::v`; the entry point
is a function of the value alone. -/
theorem C13_facade_entry_points (value : String) :
    (cssSelectorBuilder.element value = CSS.new.element value ∧
      (cssSelectorBuilder.element value).1 = Except.ok () ∧
      (cssSelectorBuilder.element value).2.stringify = value) ∧
    (cssSelectorBuilder.id value = CSS.new.id value ∧
      (cssSelectorBuilder.id value).1 = Except.ok () ∧
      (cssSelectorBuilder.id value).2.stringify = "#" ++ value) ∧
    (cssSelectorBuilder.class_ value = CSS.new.class_ value ∧
      (cssSelectorBuilder.class_ value).1 = Except.ok () ∧
      (cssSelectorBuilder.class_ value).2.stringify = "." ++ value) ∧
    (cssSelectorBuilder.attr value = CSS.new.attr value ∧
      (cssSelectorBuilder.attr value).1 = Except.ok () ∧
      (cssSelectorBuilder.attr value).2.stringify = "[" ++ value ++ "]") ∧
    (cssSelectorBuilder.pseudoClass value = CSS.new.pseudoClass value ∧
      (cssSelectorBuilder.pseudoClass value).1 = Except.ok () ∧
      (cssSelectorBuilder.pseudoClass value).2.stringify = ":" ++ value) ∧
    (cssSelectorBuilder.pseudoElement value = CSS.new.pseudoElement value ∧
      (cssSelectorBuilder.pseudoElement value).1 = Except.ok () ∧
      (cssSelectorBuilder.pseudoElement value).2.stringify = "::" ++ value) :=
  ⟨entry_eq Fragment.element value, entry_eq Fragment.id value,
   entry_eq Fragment.class_ value, entry_eq Fragment.attr value,
   entry_eq Fragment.pseudoClass value, entry_eq Fragment.pseudoElement value⟩

/-- C14: `stringify()` is a read: the call leaves the six fields as they were
and returns the rendered selector; called any number of times in a row it
returns the same string; a fragment call made after it has the outcome and
the effect it would have had without it. -/
theorem C14_stringify_pure (b : CSS) :
    b.stringifyCall.2 = b ∧
      b.stringifyCall.1 = b.stringify ∧
      (∀ count : Nat, (b.afterStringify count) = b ∧
        (b.afterStringify count).stringifyCall.1 = b.stringifyCall.1) ∧
      (∀ (kind : Fragment) (value : String),
        b.stringifyCall.2.call kind value = b.call kind value) := by
  refine ⟨?_, ?_, ?_, ?_⟩
  · rw [stringifyCall_eq]
  · rw [stringifyCall_eq]
  · intro count
    rw [afterStringify_eq]
    exact ⟨rfl, rfl⟩
  · intro kind value
    rw [stringifyCall_eq]

/-! ## Lemmas on the number type -/

/-- A natural number of at most 53 bits, and `2 ^ 53`, are numbers: rounding
returns them. -/
theorem roundNumber_exact (m : Nat) (h : m ≤ 2 ^ 53) : roundNumber m = some m := by
  rcases Nat.lt_or_eq_of_le h with hlt | heq
  · have hsize : Nat.size m ≤ 53 := Nat.size_le.mpr hlt
    simp [roundNumber, hsize]
  · subst heq
    have hsize : Nat.size (2 ^ 53) = 54 := Nat.size_pow
    simp only [roundNumber, hsize]
    norm_num

/-- The product of two integers is exact when its absolute value is at most
`2 ^ 53`. -/
theorem numberMul_exact (a b : Int) (h : (a * b).natAbs ≤ 2 ^ 53) :
    numberMul a b = some (a * b) := by
  simp only [numberMul, roundNumber_exact _ h]
  split_ifs with hneg
  · rw [Int.ofNat_natAbs_of_nonpos (le_of_lt hneg), neg_neg]
  · rw [Int.natAbs_of_nonneg (not_lt.mp hneg)]

/-- The product of two integers with a non-negative exact product is the
rounding of that product. -/
theorem numberMul_of_round (a b : Int) (m : Nat) (hnn : 0 ≤ a * b)
    (h : roundNumber (a * b).natAbs = some m) : numberMul a b = some (m : Int) := by
  simp only [numberMul, h, if_neg (not_lt.mpr hnn)]

/-- The method `getArea()` of the object `Rectangle` returns computes the
product of the arguments of `Rectangle`. -/
theorem rectangle_getArea (width height : Int) :
    (Rectangle width height).getArea () = numberMul width height := rfl

/-- The number `9007199515875289` has 54 bits. -/
theorem size_9007199515875289 : Nat.size 9007199515875289 = 54 := by
  apply le_antisymm
  · exact Nat.size_le.mpr (by norm_num)
  · exact Nat.lt_size.mpr (by norm_num)

/-- The odd number `9007199515875289` is not a number of the number type: it
rounds to the even number below it. -/
theorem roundNumber_9007199515875289 :
    roundNumber 9007199515875289 = some 9007199515875288 := by
  simp only [roundNumber, size_9007199515875289]
  norm_num

/-- The exact square of `94906267`. -/
theorem natAbs_square_94906267 :
    ((94906267 : Int) * 94906267).natAbs = 9007199515875289 := by norm_num

/-! ## The claims on `Rectangle` and `fromJSON` -/

/-- C15 fails for large integers: `94906267` is a number, its exact square
`9007199515875289` is odd and exceeds `2 ^ 53`, and
`Rectangle(94906267, 94906267).getArea()` returns `9007199515875288`. -/
theorem C15_counterexample :
    roundNumber 94906267 = some 94906267 ∧
      (Rectangle 94906267 94906267).width = 94906267 ∧
      (Rectangle 94906267 94906267).height = 94906267 ∧
      (Rectangle 94906267 94906267).getArea () = some 9007199515875288 ∧
      (Rectangle 94906267 94906267).getArea () ≠ some (94906267 * 94906267) := by
  have harea : (Rectangle 94906267 94906267).getArea () = some 9007199515875288 := by
    rw [rectangle_getArea]
    exact numberMul_of_round 94906267 94906267 9007199515875288 (by norm_num)
      (natAbs_square_94906267.symm ▸ roundNumber_9007199515875289)
  refine ⟨roundNumber_exact _ (by norm_num), rfl, rfl, harea, ?_⟩
  rw [harea]
  intro h
  have h2 := Option.some.inj h
  norm_num at h2

/-- C15 as amended: for all integers width and height whose product is at
most `2 ^ 53` in absolute value, `Rectangle(width, height)` exposes width and
height equal to its arguments and `getArea()` returns `width * height`;
negative arguments are not validated. -/
theorem C15_rectangle_area (width height : Int)
    (hsafe : (width * height).natAbs ≤ 2 ^ 53) :
    (Rectangle width height).width = width ∧
      (Rectangle width height).height = height ∧
      (Rectangle width height).getArea () = some (width * height) :=
  ⟨rfl, rfl, (rectangle_getArea width height).trans (numberMul_exact width height hsafe)⟩

/-- C15 as amended, at `Rectangle(10, 20)`, of area `200`, and at
`Rectangle(-2, 3)`, of area `-6`. -/
theorem C15_rectangle_area_witness :
    (Rectangle 10 20).getArea () = some 200 ∧ (Rectangle (-2) 3).getArea () = some (-6) :=
  ⟨(C15_rectangle_area 10 20 (by decide)).2.2, (C15_rectangle_area (-2) 3 (by decide)).2.2⟩

/-- C16: when `JSON.parse` returns an object, `fromJSON(proto, json)` is the
instance the constructor of `proto` builds from the values of the own
properties of the object, passed positionally in enumeration order; the key
names play no part, and an object with the same properties enumerated in the
opposite order passes the values in the opposite order. -/
theorem C16_fromJSON_positional {α β : Type}
    (parse : String → Except String (List (String × α))) (proto : Proto α β)
    (json : String) (obj : List (String × α)) (hparse : parse json = Except.ok obj) :
    fromJSON parse proto json = Except.ok (proto.constructor (obj.map Prod.snd)) ∧
      (∀ (parse2 : String → Except String (List (String × α))) (obj2 : List (String × α)),
        parse2 json = Except.ok obj2 → obj2.map Prod.snd = obj.map Prod.snd →
        fromJSON parse2 proto json = fromJSON parse proto json) ∧
      (∀ parse2 : String → Except String (List (String × α)),
        parse2 json = Except.ok obj.reverse →
        fromJSON parse2 proto json
          = Except.ok (proto.constructor (obj.map Prod.snd).reverse)) := by
  refine ⟨?_, ?_, ?_⟩
  · simp only [fromJSON, hparse, Object.values]
  · intro parse2 obj2 h2 hvalues
    simp only [fromJSON, hparse, h2, Object.values, hvalues]
  · intro parse2 h2
    simp only [fromJSON, h2, Object.values, List.map_reverse]

/-- C16 with a constructor `C(width, height)` that stores its first two
arguments and the object parsed from `{"height":10,"width":20}`: the instance
has width `10` and height `20`. -/
theorem C16_fromJSON_positional_witness :
    fromJSON (fun _ => Except.ok [("height", (10 : Int)), ("width", 20)])
      (Proto.mk (fun args : List Int => (args[0]?, args[1]?)))
      "\x7b\"height\":10,\"width\":20\x7d"
      = Except.ok (some 10, some 20) :=
  (C16_fromJSON_positional (fun _ => Except.ok [("height", (10 : Int)), ("width", 20)])
    (Proto.mk (fun args : List Int => (args[0]?, args[1]?)))
    "\x7b\"height\":10,\"width\":20\x7d"
    [("height", 10), ("width", 20)] rfl).1

/-! ## Frame, nesting of `combine`, and the reachable states -/

/-- The state a fragment call that returns leaves the builder in. -/
theorem call_ok_state (b : CSS) (kind : Fragment) (value : String)
    (hok : (b.call kind value).1 = Except.ok ()) :
    (b.call kind value).2 =
      (match kind with
      | Fragment.element => { b with Element := value }
      | Fragment.id => { b with Id := "#" ++ value }
      | Fragment.class_ => { b with Class := b.Class ++ ["." ++ value] }
      | Fragment.attr => { b with Attr := b.Attr ++ ["[" ++ value ++ "]"] }
      | Fragment.pseudoClass => { b with PseudoClass := b.PseudoClass ++ [":" ++ value] }
      | Fragment.pseudoElement => { b with PseudoElement := "::" ++ value }) := by
  cases kind <;>
    simp only [CSS.call, CSS.element, CSS.id, CSS.class_, CSS.attr, CSS.pseudoClass,
      CSS.pseudoElement] at hok ⊢ <;>
    split_ifs at hok ⊢ <;> rfl

/-- C17: a fragment call that returns writes one field only. `element`
writes `value` to element, `id` writes `#value` to id, `pseudoElement` writes
`::value` to pseudoElement; `class`, `attr` and `pseudoClass` extend their own
list by exactly one token at the end, every token already there staying at its
position. The other five fields are what they were. -/
theorem C17_successful_call_frame (b : CSS) (kind : Fragment) (value : String)
    (hok : (b.call kind value).1 = Except.ok ()) :
    ((kind ≠ Fragment.element → (b.call kind value).2.Element = b.Element) ∧
      (kind ≠ Fragment.id → (b.call kind value).2.Id = b.Id) ∧
      (kind ≠ Fragment.class_ → (b.call kind value).2.Class = b.Class) ∧
      (kind ≠ Fragment.attr → (b.call kind value).2.Attr = b.Attr) ∧
      (kind ≠ Fragment.pseudoClass → (b.call kind value).2.PseudoClass = b.PseudoClass) ∧
      (kind ≠ Fragment.pseudoElement →
        (b.call kind value).2.PseudoElement = b.PseudoElement)) ∧
    ((kind = Fragment.element → (b.call kind value).2.Element = value) ∧
      (kind = Fragment.id → (b.call kind value).2.Id = "#" ++ value) ∧
      (kind = Fragment.pseudoElement →
        (b.call kind value).2.PseudoElement = "::" ++ value)) ∧
    ((kind = Fragment.class_ →
        (b.call kind value).2.Class = b.Class ++ ["." ++ value] ∧
        (b.call kind value).2.Class.length = b.Class.length + 1 ∧
        ∀ i, i < b.Class.length → (b.call kind value).2.Class[i]? = b.Class[i]?) ∧
      (kind = Fragment.attr →
        (b.call kind value).2.Attr = b.Attr ++ ["[" ++ value ++ "]"] ∧
        (b.call kind value).2.Attr.length = b.Attr.length + 1 ∧
        ∀ i, i < b.Attr.length → (b.call kind value).2.Attr[i]? = b.Attr[i]?) ∧
      (kind = Fragment.pseudoClass →
        (b.call kind value).2.PseudoClass = b.PseudoClass ++ [":" ++ value] ∧
        (b.call kind value).2.PseudoClass.length = b.PseudoClass.length + 1 ∧
        ∀ i, i < b.PseudoClass.length →
          (b.call kind value).2.PseudoClass[i]? = b.PseudoClass[i]?)) := by
  rw [call_ok_state b kind value hok]
  cases kind <;>
    simp only [ne_eq, reduceCtorEq, not_true_eq_false, not_false_eq_true, false_implies,
      true_implies, and_self, true_and, and_true, List.length_append, List.length_singleton] <;>
    intro i hi <;>
    rw [List.getElem?_append_left hi]

/-- C17 at `element('a').attr('href')` followed by `attr('title')`: element is
kept and attributes becomes `['[href]', '[title]']`. -/
theorem C17_successful_call_frame_witness :
    ((CSS.new.chain [(Fragment.element, "a"), (Fragment.attr, "href")]).2.call
        Fragment.attr "title").2.Element = "a" ∧
      ((CSS.new.chain [(Fragment.element, "a"), (Fragment.attr, "href")]).2.call
        Fragment.attr "title").2.Attr = ["[href]", "[title]"] :=
  ⟨(C17_successful_call_frame
      (CSS.new.chain [(Fragment.element, "a"), (Fragment.attr, "href")]).2
      Fragment.attr "title" rfl).1.1 (by decide),
   (((C17_successful_call_frame
      (CSS.new.chain [(Fragment.element, "a"), (Fragment.attr, "href")]).2
      Fragment.attr "title" rfl).2.2.2.1 rfl).1).trans (by decide)⟩

/-- C18: nesting `combine` on the right or on the left renders the same
string, the three operands in order joined by ` t1 ` and ` t2 `; the nested
example of the documentation renders
`div#main.container.draggable + table#data ~ tr:nth-of-type(even)   td:nth-of-type(even)`. -/
theorem C18_combine_nested :
    (∀ (a b c : Selector) (t1 t2 : String),
      (cssSelectorBuilder.combine a t1
          (Selector.combine (cssSelectorBuilder.combine b t2 c))).stringify
        = (cssSelectorBuilder.combine
            (Selector.combine (cssSelectorBuilder.combine a t1 b)) t2 c).stringify ∧
      (cssSelectorBuilder.combine a t1
          (Selector.combine (cssSelectorBuilder.combine b t2 c))).stringify
        = a.stringify ++ " " ++ t1 ++ " " ++ b.stringify ++ " " ++ t2 ++ " " ++ c.stringify) ∧
    (cssSelectorBuilder.combine
      (Selector.css (CSS.new.chain [(Fragment.element, "div"), (Fragment.id, "main"),
        (Fragment.class_, "container"), (Fragment.class_, "draggable")]).2)
      "+"
      (Selector.combine (cssSelectorBuilder.combine
        (Selector.css (CSS.new.chain [(Fragment.element, "table"), (Fragment.id, "data")]).2)
        "~"
        (Selector.combine (cssSelectorBuilder.combine
          (Selector.css (CSS.new.chain [(Fragment.element, "tr"),
            (Fragment.pseudoClass, "nth-of-type(even)")]).2)
          " "
          (Selector.css (CSS.new.chain [(Fragment.element, "td"),
            (Fragment.pseudoClass, "nth-of-type(even)")]).2)))))).stringify
      = "div#main.container.draggable + table#data ~ tr:nth-of-type(even)   td:nth-of-type(even)" := by
  refine ⟨fun a b c t1 t2 => ?_, by decide⟩
  simp only [cssSelectorBuilder.combine, Combine.new, Combine.stringify, Selector.stringify,
    String.append_assoc, and_self]

/-- A part the builder holds is still held after any call. -/
theorem call_keeps_has_any (b : CSS) (kind other : Fragment) (value : String)
    (h : b.has kind) : (b.call other value).2.has kind := by
  cases kind <;> cases other <;>
    simp only [CSS.has, CSS.call, CSS.element, CSS.id, CSS.class_, CSS.attr,
      CSS.pseudoClass, CSS.pseudoElement, ne_eq, ← string_length_eq_zero] at h ⊢ <;>
    split_ifs <;> simp_all

/-- A part the builder holds is still held at the end of any chain. -/
theorem chain_keeps_has (calls : List (Fragment × String)) (b : CSS) (kind : Fragment)
    (h : b.has kind) : (b.chain calls).2.has kind := by
  induction calls generalizing b with
  | nil => exact h
  | cons c rest ih =>
    obtain ⟨k, v⟩ := c
    have hnext := call_keeps_has_any b kind k v h
    rw [CSS.chain]
    split
    · next _ next heq =>
      rw [heq] at hnext
      exact ih next hnext
    · next msg next heq =>
      rw [heq] at hnext
      exact hnext

/-- After a call that returns, of a kind other than `element`, the builder
holds a part of that kind. -/
theorem call_ok_has_later (b : CSS) (kind : Fragment) (value : String)
    (hkind : kind ≠ Fragment.element) (hok : (b.call kind value).1 = Except.ok ()) :
    (b.call kind value).2.has kind := by
  rw [call_ok_state b kind value hok]
  cases kind
  · exact absurd rfl hkind
  · exact string_append_ne_empty _ _ (by decide)
  · simp [CSS.has]
  · simp [CSS.has]
  · simp [CSS.has]
  · exact string_append_ne_empty _ _ (by decide)

/-- A call returns only on a builder that admits it. -/
theorem call_ok_admits (b : CSS) (kind : Fragment) (value : String)
    (hok : (b.call kind value).1 = Except.ok ()) : b.admits kind := by
  intro held hheld
  constructor
  · by_contra hlt
    obtain ⟨msg, hmsg⟩ := call_after_later b kind held value (not_le.mp hlt) hheld
    rw [hmsg] at hok
    cases hok
  · intro hs heq
    subst heq
    rw [call_occupied b held value hs hheld] at hok
    cases hok

/-- A chain that returns is in category order, the builder it started on
admits each of its calls, and it calls `id` and `pseudoElement` at most once. -/
theorem chain_ok_ordered (calls : List (Fragment × String)) (b : CSS)
    (hok : (b.chain calls).1 = Except.ok ()) :
    calls.Pairwise (fun x y => x.1.rank ≤ y.1.rank) ∧
      (∀ c ∈ calls, b.admits c.1) ∧
      (∀ kind : Fragment, kind = Fragment.id ∨ kind = Fragment.pseudoElement →
        (calls.map Prod.fst).count kind ≤ 1) := by
  induction calls generalizing b with
  | nil => simp
  | cons c rest ih =>
    obtain ⟨k, v⟩ := c
    obtain ⟨hcall, hchain⟩ := chain_cons_ok b k v rest hok
    rw [hchain] at hok
    obtain ⟨hp, hadm, hcount⟩ := ih (b.call k v).2 hok
    refine ⟨List.pairwise_cons.mpr ⟨fun c hc => ?_, hp⟩, ?_, ?_⟩
    · by_cases hk : k = Fragment.element
      · subst hk
        exact Nat.zero_le _
      · exact (hadm c hc k (call_ok_has_later b k v hk hcall)).1
    · intro c hc
      rcases List.mem_cons.mp hc with rfl | hmem
      · exact call_ok_admits b k v hcall
      · exact fun held hheld => hadm c hmem held (call_keeps_has_any b held k v hheld)
    · intro kind hkind
      rw [List.map_cons, List.count_cons]
      by_cases hk : k = kind
      · subst hk
        have hne : k ≠ Fragment.element := by
          rcases hkind with rfl | rfl <;> decide
        have hsing : k.singular := by
          rcases hkind with rfl | rfl <;> trivial
        have hhas := call_ok_has_later b k v hne hcall
        have hzero : (rest.map Prod.fst).count k = 0 := by
          rw [List.count_eq_zero]
          intro hmem
          obtain ⟨c, hc, hck⟩ := List.mem_map.mp hmem
          exact (hadm c hc k hhas).2 hsing hck.symm
        simp [hzero]
      · have := hcount kind hkind
        simp [hk]
        exact this

/-- On a builder that holds a pseudo-element every fragment call throws. -/
theorem call_after_pseudoElement (b : CSS) (kind : Fragment) (value : String)
    (h : b.has Fragment.pseudoElement) :
    ∃ msg, (b.call kind value).1 = Except.error msg := by
  by_cases hk : kind = Fragment.pseudoElement
  · subst hk
    exact ⟨duplicateError, call_occupied b Fragment.pseudoElement value trivial h⟩
  · exact call_after_later b kind Fragment.pseudoElement value
      (by cases kind <;> first | exact absurd rfl hk | decide) h

/-- At the end of a chain that returns the builder holds a part of every kind
the chain called, `element` apart. -/
theorem chain_ok_has (calls : List (Fragment × String)) (b : CSS) (kind : Fragment)
    (hkind : kind ≠ Fragment.element) (hmem : kind ∈ calls.map Prod.fst)
    (hok : (b.chain calls).1 = Except.ok ()) : (b.chain calls).2.has kind := by
  induction calls generalizing b with
  | nil => simp at hmem
  | cons c rest ih =>
    obtain ⟨k, v⟩ := c
    obtain ⟨hcall, hchain⟩ := chain_cons_ok b k v rest hok
    rw [hchain] at hok ⊢
    rw [List.map_cons, List.mem_cons] at hmem
    rcases hmem with rfl | hrest
    · exact chain_keeps_has rest _ _ (call_ok_has_later b _ v hkind hcall)
    · exact ih _ hrest hok

/-- C19: in a sequence of fragment calls on a fresh builder that all return,
the kinds are in the order element, id, class, attribute, pseudo-class,
pseudo-element, repetitions allowed, `id` and `pseudoElement` are called at
most once each, a `pseudoElement` call is the last call, and after it every
further fragment call on that builder throws, whatever was tried before. -/
theorem C19_successful_calls_ordered (calls : List (Fragment × String))
    (hok : (CSS.new.chain calls).1 = Except.ok ()) :
    calls.Pairwise (fun x y => x.1.rank ≤ y.1.rank) ∧
      (calls.map Prod.fst).count Fragment.id ≤ 1 ∧
      (calls.map Prod.fst).count Fragment.pseudoElement ≤ 1 ∧
      (∀ pre value post, calls = pre ++ (Fragment.pseudoElement, value) :: post →
        post = []) ∧
      (Fragment.pseudoElement ∈ calls.map Prod.fst →
        ∀ (more : List (Fragment × String)) (kind : Fragment) (value : String),
          ∃ msg, (((CSS.new.chain calls).2.after more).call kind value).1
            = Except.error msg) := by
  obtain ⟨hp, _, hcount⟩ := chain_ok_ordered calls CSS.new hok
  have hpe := hcount Fragment.pseudoElement (Or.inr rfl)
  refine ⟨hp, hcount Fragment.id (Or.inl rfl), hpe, ?_, ?_⟩
  · intro pre value post hsplit
    cases post with
    | nil => rfl
    | cons c post =>
      exfalso
      subst hsplit
      have hrank : Fragment.pseudoElement.rank ≤ c.1.rank := by
        have h1 := (List.pairwise_append.mp hp).2.1
        exact (List.pairwise_cons.mp h1).1 c (List.mem_cons_self _ _)
      have hc : c.1 = Fragment.pseudoElement := by
        revert hrank
        cases c.1 <;> simp [Fragment.rank]
      simp only [List.map_append, List.map_cons, List.count_append, List.count_cons, hc,
        beq_self_eq_true, if_true] at hpe
      omega
  · intro hmem more kind value
    exact call_after_pseudoElement _ kind value
      (after_keeps_has more _ Fragment.pseudoElement trivial
        (chain_ok_has calls CSS.new Fragment.pseudoElement (by decide) hmem hok))

/-- C19 at `element('a').class('b').class('c').pseudoElement('after')`: the
chain returns, it is in category order, and `class('d')` then throws. -/
theorem C19_successful_calls_ordered_witness :
    (CSS.new.chain [(Fragment.element, "a"), (Fragment.class_, "b"), (Fragment.class_, "c"),
        (Fragment.pseudoElement, "after")]).1 = Except.ok () ∧
      [(Fragment.element, "a"), (Fragment.class_, "b"), (Fragment.class_, "c"),
        (Fragment.pseudoElement, "after")].Pairwise
          (fun x y => x.1.rank ≤ y.1.rank) ∧
      ∃ msg, (((CSS.new.chain [(Fragment.element, "a"), (Fragment.class_, "b"),
          (Fragment.class_, "c"), (Fragment.pseudoElement, "after")]).2.after []).call
        Fragment.class_ "d").1 = Except.error msg :=
  ⟨rfl,
   (C19_successful_calls_ordered [(Fragment.element, "a"), (Fragment.class_, "b"),
      (Fragment.class_, "c"), (Fragment.pseudoElement, "after")] rfl).1,
   (C19_successful_calls_ordered [(Fragment.element, "a"), (Fragment.class_, "b"),
      (Fragment.class_, "c"), (Fragment.pseudoElement, "after")] rfl).2.2.2.2
      (by decide) [] Fragment.class_ "d"⟩
